import Mathlib

/-!
Shallow embedding of the top-K scored-hit collector of `src/search/collect.go`
(package `search` of golucene), together with the fragments of Go's
`container/heap` standard library that the file drives.

Modelling conventions:

* Scores are Go `float64`; the collector only copies and compares them
  (never adds or multiplies), so they are modelled as exact rationals `ℚ`.
  Every float that actually occurs (integer test scores, `-math.MaxFloat32`)
  is exactly representable, and `<`, `==` on such floats agree with `ℚ`.
* Document ids, counters and slice indices are Go `int`; nothing here can
  approach 2^63, so they are modelled as `ℤ` (with Go's panics on bad slice
  indices modelled explicitly, see `getI`).
* The priority queue stores `interface{}` values.  `collect.go` line 127
  stores plain `ScoreDoc` struct values, while the comparator (line 131)
  and every pop site (lines 71, 156, 162) type-assert `*ScoreDoc`.  We keep
  the dynamic type of each slot (`GoVal`): a slot is either a struct value
  `.sd` or a pointer `.ptr i` into a list of mutable cells.  A failed type
  assertion, an out-of-range index, or an explicit `panic(...)` is an
  `Except.error` (`GoErr`).
* The `newTopDocs` / `topDocsSize` closure fields of `TopDocsCollector` are
  defunctionalized: the only closures ever installed are those of
  `newTopDocsCollector` / `newTocScoreDocCollector`, and the score variant
  (collect.go lines 140-160) is the one every constructed collector uses,
  so `topDocsRange` below inlines exactly that variant.
* The external `Scorer` interface is not part of `src`; per the spec
  (§6: `Scorer.currentScore() -> float`, valid only for the document
  currently visited) the score is passed to `collect` as an argument.
-/

/-- `ScoreDoc` (collect.go lines 9-12): one hit `{score, doc}`. -/
structure ScoreDoc where
  score : ℚ
  doc   : ℤ
  deriving DecidableEq, Repr

/-- A Go `interface{}` slot of the priority queue: either a `ScoreDoc`
struct value (what line 127 stores) or a `*ScoreDoc` pointer, modelled as
an index into the cell list. -/
inductive GoVal where
  | sd  (v : ScoreDoc)
  | ptr (i : ℕ)
  deriving DecidableEq, Repr

/-- Run-time faults of the Go code: a failed `.(*ScoreDoc)` type
assertion, an out-of-range slice index, an explicit `panic(msg)`, and
(model-only) exhaustion of recursion fuel, which a sufficiency lemma rules
out at every call site used by the theorems. -/
inductive GoErr where
  | typeAssert
  | indexOutOfRange
  | callerErr (msg : String)
  | fuelOut
  deriving DecidableEq, Repr

instance {ε α : Type} [DecidableEq ε] [DecidableEq α] : DecidableEq (Except ε α) :=
  fun a b =>
    match a, b with
    | .ok x, .ok y =>
      if h : x = y then .isTrue (by rw [h]) else .isFalse (by intro hc; cases hc; exact h rfl)
    | .error x, .error y =>
      if h : x = y then .isTrue (by rw [h]) else .isFalse (by intro hc; cases hc; exact h rfl)
    | .ok _, .error _ => .isFalse (by intro hc; cases hc)
    | .error _, .ok _ => .isFalse (by intro hc; cases hc)

/-- Go slice read `l[i]` with `int` index: panics (error) when `i < 0` or
`i >= len(l)`. -/
def getI {α : Type} (l : List α) (i : ℤ) : Except GoErr α :=
  if h : 0 ≤ i ∧ i.toNat < l.length then .ok (l.get ⟨i.toNat, h.2⟩)
  else .error .indexOutOfRange

/-- The type assertion `x.(*ScoreDoc)` (collect.go lines 71, 131, 156, 162):
succeeds only on a pointer slot. -/
def assertPtr : GoVal → Except GoErr ℕ
  | .ptr i => .ok i
  | .sd _  => .error .typeAssert

/-- Dereference a `*ScoreDoc`.  All pointers the program creates are valid;
an invalid index cannot arise in Go and is mapped to an error. -/
def derefC (cells : List ScoreDoc) (i : ℕ) : Except GoErr ScoreDoc :=
  if h : i < cells.length then .ok (cells.get ⟨i, h⟩) else .error .indexOutOfRange

/-- The HitQueue comparator body (collect.go lines 130-137): score
ascending, ties broken by larger doc id first ("worse"). -/
def hitLess (a b : ScoreDoc) : Bool :=
  if a.score = b.score then a.doc > b.doc else a.score < b.score

/-- `pq.less(i, j)` (collect.go lines 130-137): fetch both slots, assert
`*ScoreDoc` on each, dereference, compare. -/
def pqLess (cells : List ScoreDoc) (items : List GoVal) (i j : ℤ) :
    Except GoErr Bool := do
  let a ← getI items i
  let b ← getI items j
  let ia ← assertPtr a
  let ib ← assertPtr b
  let da ← derefC cells ia
  let db ← derefC cells ib
  pure (hitLess da db)

/-- `pq.Swap(i, j)` (collect.go line 21): parallel assignment
`items[i], items[j] = items[j], items[i]`, reading both before writing. -/
def pqSwap (items : List GoVal) (i j : ℤ) : Except GoErr (List GoVal) := do
  let vi ← getI items i
  let vj ← getI items j
  pure ((items.set j.toNat vi).set i.toNat vj)

/-- `pq.Pop()` (collect.go lines 23-28): remove and return the last slice
element (`items[n-1]` panics when the slice is empty). -/
def pqSlicePop (items : List GoVal) : Except GoErr (GoVal × List GoVal) :=
  match items.getLast? with
  | some v => .ok (v, items.dropLast)
  | none   => .error .indexOutOfRange

/-- `container/heap.down(h, i, n)`: sift slot `i` down within the first `n`
slots.  `fuel` only bounds the recursion; callers pass `items.length + 1`,
which `heapDown_ok` proves sufficient (each step at least doubles `i`). -/
def heapDown (cells : List ScoreDoc) (fuel : ℕ) (items : List GoVal)
    (i : ℕ) (n : ℤ) : Except GoErr (List GoVal) :=
  match fuel with
  | 0 => .error .fuelOut
  | fuel' + 1 =>
    -- `j1 := 2*i + 1` is written out as `2*i + 1` (and `j2 = j1+1` as `2*i + 2`)
    if (((2 * i + 1 : ℕ) : ℤ) ≥ n) then .ok items  -- `if j1 >= n || j1 < 0 { break }`
    else do
      let j ← if (((2 * i + 2 : ℕ) : ℤ) < n) then do
          -- `if j2 := j1 + 1; j2 < n && h.Less(j2, j1) { j = j2 }`
          let b ← pqLess cells items ((2 * i + 2 : ℕ) : ℤ) ((2 * i + 1 : ℕ) : ℤ)
          pure (if b then 2 * i + 2 else 2 * i + 1)
        else pure (2 * i + 1)
      let b2 ← pqLess cells items (j : ℤ) (i : ℤ)
      if b2 then do
        let items' ← pqSwap items (i : ℤ) (j : ℤ)
        heapDown cells fuel' items' j n
      else .ok items                    -- `if !h.Less(j, i) { break }`

/-- `container/heap.up(h, j)`: sift slot `j` up.  Go computes the parent as
`(j - 1) / 2` with truncated `int` division, which for `j = 0` gives `0`
and breaks via `i == j`; `ℕ` subtraction gives the same value. -/
def heapUp (cells : List ScoreDoc) (fuel : ℕ) (items : List GoVal)
    (j : ℕ) : Except GoErr (List GoVal) :=
  match fuel with
  | 0 => .error .fuelOut
  | fuel' + 1 =>
    -- `i := (j - 1) / 2` is written out; `ℕ` subtraction agrees with Go here
    if (j - 1) / 2 = j then .ok items
    else do
      let b ← pqLess cells items (j : ℤ) (((j - 1) / 2 : ℕ) : ℤ)
      if b then do
        let items' ← pqSwap items (((j - 1) / 2 : ℕ) : ℤ) (j : ℤ)
        heapUp cells fuel' items' ((j - 1) / 2)
      else .ok items

/-- The descending loop of `container/heap.Init`: `go k` runs `down` at
`i = k-1, k-2, ..., 0` over the fixed bound `n`. -/
def heapInitGo (cells : List ScoreDoc) (n : ℤ) (k : ℕ) (items : List GoVal) :
    Except GoErr (List GoVal) :=
  match k with
  | 0 => .ok items
  | k' + 1 => do
    let items' ← heapDown cells (items.length + 1) items k' n
    heapInitGo cells n k' items'

/-- `container/heap.Init(h)`: `for i := n/2 - 1; i >= 0; i-- { down(h, i, n) }`. -/
def heapInit (cells : List ScoreDoc) (items : List GoVal) :
    Except GoErr (List GoVal) :=
  heapInitGo cells (items.length : ℤ) (items.length / 2) items

/-- `container/heap.Push(h, x)`: append, then sift the last slot up. -/
def heapPush (cells : List ScoreDoc) (items : List GoVal) (x : GoVal) :
    Except GoErr (List GoVal) :=
  let items' := items ++ [x]
  heapUp cells (items'.length + 1) items' (items'.length - 1)

/-- `container/heap.Pop(h)`: `n := Len()-1; Swap(0, n); down(h, 0, n);
return h.Pop()`.  On an empty queue `Swap(0, -1)` panics (error). -/
def heapPop (cells : List ScoreDoc) (items : List GoVal) :
    Except GoErr (GoVal × List GoVal) := do
  -- `n := h.Len() - 1` is written out as `items.length - 1`
  let items₁ ← pqSwap items 0 ((items.length : ℤ) - 1)
  let items₂ ← heapDown cells (items₁.length + 1) items₁ 0 ((items.length : ℤ) - 1)
  pqSlicePop items₂

/-- `TopDocs` (collect.go lines 30-34).  `maxScore` is a float that is
either a real score or `math.NaN()`; since NaN is never compared here, it
is modelled as `Option ℚ` with `none` for NaN. -/
structure TopDocs where
  totalHits : ℤ
  scoreDocs : List ScoreDoc
  maxScore  : Option ℚ
  deriving DecidableEq, Repr

/-- Combined state of `TopDocsCollector` + `TopScoreDocCollector`
(collect.go lines 41-47, 117-122): the queue (`cells` are the allocated
`ScoreDoc` objects, `items` the `interface{}` slots), `TotalHits`, the
retained `pqTop` pointer and the segment `docBase`. -/
structure CollectorState where
  cells     : List ScoreDoc
  items     : List GoVal
  totalHits : ℤ
  pqTop     : ℕ
  docBase   : ℤ
  deriving DecidableEq, Repr

/-- `topDocsSize` closure (collect.go lines 51-59):
`if n := pq.Len(); TotalHits >= n { return n }; return TotalHits`. -/
def topDocsSize (s : CollectorState) : ℤ :=
  if s.totalHits ≥ (s.items.length : ℤ) then (s.items.length : ℤ) else s.totalHits

/-- Discard loop: pop the queue `k` times, dropping the results
(collect.go lines 107-109 and 153-155 ignore `heap.Pop`'s result, so no
type assertion happens there). -/
def discardN (cells : List ScoreDoc) (k : ℕ) (items : List GoVal) :
    Except GoErr (List GoVal) :=
  match k with
  | 0 => .ok items
  | k' + 1 => do
    let (_, items') ← heapPop cells items
    discardN cells k' items'

/-- `populateResults(ans, howMany)` (collect.go lines 69-73): fill `ans`
back to front with `*(heap.Pop(pq).(*ScoreDoc))`, so the returned list is
the reverse of the pop order. -/
def populateResults (cells : List ScoreDoc) (k : ℕ) (items : List GoVal) :
    Except GoErr (List ScoreDoc × List GoVal) :=
  match k with
  | 0 => .ok ([], items)
  | k' + 1 => do
    let (v, items₁) ← heapPop cells items
    let i ← assertPtr v
    let sdv ← derefC cells i
    let (rest, items₂) ← populateResults cells k' items₁
    .ok (rest ++ [sdv], items₂)

/-- The in-range tail of `TopDocsRange` (collect.go lines 96-114) with the
`newTopDocs` hook of `newTocScoreDocCollector` (lines 144-159) inlined and
`hm` the already-clamped `howMany`: returns the populated hits and the
computed `maxScore`. -/
def rangeValid (cells : List ScoreDoc) (items : List GoVal)
    (start hm : ℤ) :
    Except GoErr (Option (List ScoreDoc × Option ℚ) × List GoVal) := do
  -- `for i := pq.Len() - start - howMany; i > 0; i--` (count fixed at entry)
  let items₁ ← discardN cells ((items.length : ℤ) - start - hm).toNat items
  let (results, items₂) ← populateResults cells hm.toNat items₁
  if start = 0 then do
    -- `maxScore = results[0].score`
    let first ← getI results 0
    .ok (some (results, some first.score), items₂)
  else do
    -- `for i := pq.Len(); i > 1; i-- { heap.Pop(pq) }` then one last pop
    let items₃ ← discardN cells (items₂.length - 1) items₂
    let (v, items₄) ← heapPop cells items₃
    let i ← assertPtr v
    let sdv ← derefC cells i
    .ok (some (results, some sdv.score), items₄)

/-- Body of `TopDocsRange` minus the final `TopDocs` record (collect.go
lines 82-115): `none` is the `results == nil` empty branch (invalid
range), otherwise `rangeValid` runs the extraction.  `TotalHits` enters
only when the caller builds the record, so it is not a parameter here. -/
def rangePayload (cells : List ScoreDoc) (items : List GoVal)
    (size start howMany : ℤ) :
    Except GoErr (Option (List ScoreDoc × Option ℚ) × List GoVal) :=
  if start < 0 ∨ start ≥ size ∨ howMany ≤ 0 then
    .ok (none, items)
  else
    -- `if size - start < howMany { howMany = size - start }`
    rangeValid cells items start
      (if size - start < howMany then size - start else howMany)

/-- `TopDocsRange(start, howMany)` (collect.go lines 82-115) for a
score-ordered collector: the `results == nil` branch returns
`TopDocs{0, []ScoreDoc{}, math.NaN()}` (line 142), otherwise
`TopDocs{TotalHits, results, maxScore}` (line 159). -/
def topDocsRange (s : CollectorState) (start howMany : ℤ) :
    Except GoErr (TopDocs × CollectorState) :=
  match rangePayload s.cells s.items (topDocsSize s) start howMany with
  | .error e => .error e
  | .ok (none, items') =>
    .ok ({totalHits := 0, scoreDocs := [], maxScore := none}, {s with items := items'})
  | .ok (some (rs, mx), items') =>
    .ok ({totalHits := s.totalHits, scoreDocs := rs, maxScore := mx}, {s with items := items'})

/-- `TopDocs()` (collect.go lines 75-80): `TopDocsRange(0, topDocsSize())`. -/
def topDocsFull (s : CollectorState) : Except GoErr (TopDocs × CollectorState) :=
  topDocsRange s 0 (topDocsSize s)

/-- `InOrderTopScoreDocCollector.Collect(doc)` (collect.go lines 192-210).
The score comes from the external scorer (spec §6) and is passed in.
Note the source mutates the object `pqTop` points at and then does
`heap.Pop` followed by `heap.Push(pqTop)` without reacquiring the top. -/
def collect (s : CollectorState) (score : ℚ) (doc : ℤ) :
    Except GoErr CollectorState := do
  let s := {s with totalHits := s.totalHits + 1}   -- `c.TotalHits++`
  let top ← derefC s.cells s.pqTop
  if score ≤ top.score then
    .ok s                                          -- reject, no mutation
  else do
    let cells' := s.cells.set s.pqTop {score := score, doc := doc + s.docBase}
    let (_, items₁) ← heapPop cells' s.items       -- result discarded, no assert
    let items₂ ← heapPush cells' items₁ (.ptr s.pqTop)
    .ok {s with cells := cells', items := items₂}

/-- `SetNextReader(ctx)` (collect.go lines 167-169).  The
`index.AtomicReaderContext` type is outside `src`; per the spec (§6,
`SegmentContext{docBase}`) only its `DocBase` field is consumed. -/
def setNextReader (s : CollectorState) (docBase : ℤ) : CollectorState :=
  {s with docBase := docBase}

/-- The sentinel pre-fill value `ScoreDoc{-math.MaxFloat32, math.MaxInt32}`
(collect.go line 127); `math.MaxFloat32 = 2^128 - 2^104 =
340282346638528859811704183484516925440` exactly (written as a numeral so
the kernel can evaluate comparisons). -/
def sentinelSD : ScoreDoc :=
  {score := -340282346638528859811704183484516925440, doc := 2147483647}

/-- `newTocScoreDocCollector(numHits)` (collect.go lines 124-165), literal:
line 127 stores `ScoreDoc` struct VALUES (not `&ScoreDoc{...}`) in the
`interface{}` slice, so no cells are allocated; `heap.Init` (line 138) and
`heap.Pop(pq).(*ScoreDoc)` (line 162) then hit the `*ScoreDoc` type
assertions.  A negative `numHits` makes `make([]interface{}, numHits)`
panic, modelled as an index error. -/
def newTocScoreDocCollector (numHits : ℤ) : Except GoErr CollectorState :=
  if numHits < 0 then .error .indexOutOfRange
  else do
    let items₀ : List GoVal := List.replicate numHits.toNat (.sd sentinelSD)
    let items₁ ← heapInit [] items₀
    let (v, items₂) ← heapPop [] items₁
    let top ← assertPtr v
    let items₃ ← heapPush [] items₂ (.ptr top)
    .ok {cells := [], items := items₃, totalHits := 0, pqTop := top, docBase := 0}

/-- `NewInOrderTopScoreDocCollector(numHits)` (collect.go lines 188-190). -/
def NewInOrderTopScoreDocCollector (numHits : ℤ) : Except GoErr CollectorState :=
  newTocScoreDocCollector numHits

/-- `NewTopScoreDocCollector(numHits, after, docsScoredInOrder)`
(collect.go lines 171-182).  The guard is `numHits < 0` although the
message demands `> 0`; `after` is never read. -/
def NewTopScoreDocCollector (numHits : ℤ) (docsScoredInOrder : Bool) :
    Except GoErr CollectorState :=
  if numHits < 0 then
    .error (.callerErr "numHits must be > 0; please use TotalHitCountCollector if you just need the total hit count")
  else if docsScoredInOrder then
    NewInOrderTopScoreDocCollector numHits
  else
    .error (.callerErr "not supported yet")

/-- Variant of `newTocScoreDocCollector` with the one-token repair the rest
of the file assumes: line 127 allocating pointers (`&ScoreDoc{...}`), i.e.
each slot holds `.ptr i` into a freshly allocated cell.  Every other step
is the literal code.  Used to exhibit what the collector computes once the
construction-time type-assertion fault is out of the way. -/
def newTocScoreDocCollectorPtr (numHits : ℤ) : Except GoErr CollectorState :=
  if numHits < 0 then .error .indexOutOfRange
  else do
    let cells₀ : List ScoreDoc := List.replicate numHits.toNat sentinelSD
    let items₀ : List GoVal := (List.range numHits.toNat).map .ptr
    let items₁ ← heapInit cells₀ items₀
    let (v, items₂) ← heapPop cells₀ items₁
    let top ← assertPtr v
    let items₃ ← heapPush cells₀ items₂ (.ptr top)
    .ok {cells := cells₀, items := items₃, totalHits := 0, pqTop := top, docBase := 0}

/-- Drive the pointer-repaired collector through one segment with the given
`(score, localId)` hits: `SetNextReader({DocBase: 0})` then `Collect` for
each hit in order. -/
def runPtr (numHits : ℤ) (hits : List (ℚ × ℤ)) : Except GoErr CollectorState := do
  let s ← newTocScoreDocCollectorPtr numHits
  hits.foldlM (fun st h => collect st h.1 h.2) (setNextReader s 0)

/-- `fullResult()` of a pointer-repaired run: collect all hits, then
`TopDocs()`. -/
def fullResultPtr (numHits : ℤ) (hits : List (ℚ × ℤ)) : Except GoErr TopDocs := do
  let s ← runPtr numHits hits
  let (td, _) ← topDocsFull s
  .ok td

/-- `extract(start, count)` (`TopDocsRange`) of a pointer-repaired run. -/
def extractPtr (numHits : ℤ) (hits : List (ℚ × ℤ)) (start howMany : ℤ) :
    Except GoErr TopDocs := do
  let s ← runPtr numHits hits
  let (td, _) ← topDocsRange s start howMany
  .ok td

/-- The heap contents of a collector state, each slot dereferenced
(struct-value slots yield their value directly). -/
def derefItems (s : CollectorState) : Except GoErr (List ScoreDoc) :=
  s.items.mapM (fun v => match v with
    | .sd d => .ok d
    | .ptr i => derefC s.cells i)

/-- Heap contents after a pointer-repaired run. -/
def heapAfterPtr (numHits : ℤ) (hits : List (ℚ × ℤ)) :
    Except GoErr (List ScoreDoc) := do
  let s ← runPtr numHits hits
  derefItems s

/-! ### Well-formedness and success lemmas

`WFHeap` is the shape every queue a Go program can actually build has:
every slot is a pointer into a valid cell.  (`newTopDocsCollector` itself
never panics, so such accumulator states are constructible in-package even
though `newTocScoreDocCollector` is not able to produce one; the literal
constructor's all-value queues are exactly the non-`WFHeap` ones.) -/

/-- A slot that the `.(*ScoreDoc)` assertions and dereferences accept. -/
def goodPtr (cells : List ScoreDoc) : GoVal → Bool
  | .ptr i => decide (i < cells.length)
  | .sd _  => false

/-- Every slot of the queue is a valid pointer. -/
def WFHeap (cells : List ScoreDoc) (items : List GoVal) : Prop :=
  ∀ v ∈ items, goodPtr cells v = true

instance (cells : List ScoreDoc) (items : List GoVal) :
    Decidable (WFHeap cells items) :=
  inferInstanceAs (Decidable (∀ v ∈ items, goodPtr cells v = true))

/-- The scores currently held by the queue, each slot dereferenced; used
to phrase "the score of the current heap minimum" (a rejected score is one
that is `≤` every held score). -/
def heapScores (s : CollectorState) : List ℚ :=
  s.items.filterMap (fun v => match v with
    | .sd d => some d.score
    | .ptr i => (s.cells.get? i).map ScoreDoc.score)

/-- The spec's worked example stream: scores [1,5,3,9,2], local ids
100..104, submitted in order within one segment with docBase 0. -/
def c1hits : List (ℚ × ℤ) := [(1, 100), (5, 101), (3, 102), (9, 103), (2, 104)]

/-- A well-formed accumulator state: one retained hit (5,100), counter 3. -/
def c5state : CollectorState := ⟨[⟨5, 100⟩], [.ptr 0], 3, 0, 0⟩

/-- The state the pointer-repaired K=3 collector itself reaches after
accepting scores 5 then 7 (ids 100, 101): every slot aliases the `pqTop`
cell holding (7,101) — each accept also evicted a sentinel via `heap.Pop` —
while the counter is still 2, below the heap size 3. -/
def c5cex : CollectorState :=
  ⟨[⟨7, 101⟩, sentinelSD, sentinelSD], [.ptr 0, .ptr 0, .ptr 0], 2, 0, 0⟩

/-- A well-formed accumulator state with a nonzero counter (5). -/
def c6state : CollectorState := ⟨[⟨2, 7⟩], [.ptr 0], 5, 0, 0⟩

/-- A well-formed accumulator state: three retained hits, counter 5. -/
def c9state : CollectorState :=
  ⟨[⟨1, 10⟩, ⟨2, 11⟩, ⟨3, 12⟩], [.ptr 0, .ptr 1, .ptr 2], 5, 0, 0⟩

/-- A well-formed accumulator state that has collected nothing: two
sentinel cells, counter 0. -/
def c10state : CollectorState :=
  ⟨[sentinelSD, sentinelSD], [.ptr 0, .ptr 1], 0, 0, 0⟩

lemma ebind_ok {α β : Type} (a : α) (f : α → Except GoErr β) :
    (Except.ok a >>= f : Except GoErr β) = f a := rfl

lemma ebind_error {α β : Type} (e : GoErr) (f : α → Except GoErr β) :
    (Except.error e >>= f : Except GoErr β) = Except.error e := rfl

lemma goodPtr_elim {cells : List ScoreDoc} {v : GoVal}
    (h : goodPtr cells v = true) : ∃ k, v = GoVal.ptr k ∧ k < cells.length := by
  cases v with
  | sd d => simp [goodPtr] at h
  | ptr k => exact ⟨k, rfl, by simpa [goodPtr] using h⟩

lemma getI_ok {α : Type} (l : List α) (i : ℤ) (h0 : 0 ≤ i)
    (h1 : i.toNat < l.length) : getI l i = .ok (l.get ⟨i.toNat, h1⟩) := by
  unfold getI
  rw [dif_pos ⟨h0, h1⟩]

lemma derefC_ok (cells : List ScoreDoc) (k : ℕ) (h : k < cells.length) :
    derefC cells k = .ok (cells.get ⟨k, h⟩) := by
  unfold derefC
  rw [dif_pos h]

lemma pqLess_ok (cells : List ScoreDoc) (items : List GoVal) (i j : ℤ)
    (hwf : WFHeap cells items) (h0i : 0 ≤ i) (h1i : i.toNat < items.length)
    (h0j : 0 ≤ j) (h1j : j.toNat < items.length) :
    ∃ b, pqLess cells items i j = .ok b := by
  obtain ⟨ka, hva, hka⟩ := goodPtr_elim (hwf _ (items.get_mem _ h1i))
  obtain ⟨kb, hvb, hkb⟩ := goodPtr_elim (hwf _ (items.get_mem _ h1j))
  refine ⟨hitLess (cells.get ⟨ka, hka⟩) (cells.get ⟨kb, hkb⟩), ?_⟩
  unfold pqLess
  rw [getI_ok _ _ h0i h1i, ebind_ok, getI_ok _ _ h0j h1j, ebind_ok, hva, hvb]
  simp only [assertPtr, ebind_ok]
  rw [derefC_ok _ _ hka, ebind_ok, derefC_ok _ _ hkb, ebind_ok]
  rfl

lemma pqSwap_ok (items : List GoVal) (i j : ℤ)
    (h0i : 0 ≤ i) (h1i : i.toNat < items.length)
    (h0j : 0 ≤ j) (h1j : j.toNat < items.length) :
    ∃ its', pqSwap items i j = .ok its' ∧ its'.length = items.length ∧
      ∀ v ∈ its', v ∈ items := by
  refine ⟨(items.set j.toNat (items.get ⟨i.toNat, h1i⟩)).set i.toNat
      (items.get ⟨j.toNat, h1j⟩), ?_, ?_, ?_⟩
  · unfold pqSwap
    rw [getI_ok _ _ h0i h1i, ebind_ok, getI_ok _ _ h0j h1j, ebind_ok]
    rfl
  · simp
  · intro v hv
    rcases List.mem_or_eq_of_mem_set hv with hv' | rfl
    · rcases List.mem_or_eq_of_mem_set hv' with hv'' | rfl
      · exact hv''
      · exact items.get_mem _ h1i
    · exact items.get_mem _ h1j

lemma epure_ok {α : Type} (a : α) : (pure a : Except GoErr α) = .ok a := rfl

lemma heapDown_ok (cells : List ScoreDoc) :
    ∀ (fuel : ℕ) (items : List GoVal) (i : ℕ) (n : ℤ),
      WFHeap cells items → n ≤ (items.length : ℤ) →
      n.toNat ≤ i + fuel → 0 < fuel →
      ∃ its', heapDown cells fuel items i n = .ok its' ∧
        its'.length = items.length ∧ ∀ v ∈ its', v ∈ items := by
  intro fuel
  induction fuel with
  | zero => intro items i n _ _ _ hf; omega
  | succ f ih =>
    intro items i n hwf hn hfi _
    by_cases hguard : ((2 * i + 1 : ℕ) : ℤ) ≥ n
    · refine ⟨items, ?_, rfl, fun v hv => hv⟩
      simp only [heapDown]
      rw [if_pos hguard]
    · have hj1n : 2 * i + 1 < n.toNat := by omega
      have hlen : n.toNat ≤ items.length := by omega
      have hbody : ∀ j : ℕ, i + 1 ≤ j → j < n.toNat →
          ∃ its',
            (do
              let b2 ← pqLess cells items (j : ℤ) (i : ℤ)
              if b2 then do
                let items' ← pqSwap items (i : ℤ) (j : ℤ)
                heapDown cells f items' j n
              else (.ok items : Except GoErr (List GoVal))) = .ok its' ∧
            its'.length = items.length ∧ ∀ v ∈ its', v ∈ items := by
        intro j hij hjn
        obtain ⟨b2, hb2⟩ := pqLess_ok cells items (j : ℤ) (i : ℤ) hwf
          (by omega) (by omega) (by omega) (by omega)
        cases b2 with
        | false =>
          refine ⟨items, ?_, rfl, fun v hv => hv⟩
          rw [hb2, ebind_ok]
          simp
        | true =>
          obtain ⟨its₁, hs, hl1, hm1⟩ := pqSwap_ok items (i : ℤ) (j : ℤ)
            (by omega) (by omega) (by omega) (by omega)
          have hwf₁ : WFHeap cells its₁ := fun v hv => hwf v (hm1 v hv)
          obtain ⟨its₂, hd, hl2, hm2⟩ := ih its₁ j n hwf₁ (by omega) (by omega) (by omega)
          refine ⟨its₂, ?_, by omega, fun v hv => hm1 v (hm2 v hv)⟩
          rw [hb2, ebind_ok]
          simp only [if_true]
          rw [hs, ebind_ok, hd]
      simp only [heapDown]
      rw [if_neg hguard]
      by_cases hc : ((2 * i + 2 : ℕ) : ℤ) < n
      · rw [if_pos hc]
        obtain ⟨b, hb⟩ := pqLess_ok cells items ((2 * i + 2 : ℕ) : ℤ) ((2 * i + 1 : ℕ) : ℤ)
          hwf (by omega) (by omega) (by omega) (by omega)
        rw [hb, ebind_ok, epure_ok, ebind_ok]
        have hjb : i + 1 ≤ (if b = true then 2 * i + 2 else 2 * i + 1) ∧
            (if b = true then 2 * i + 2 else 2 * i + 1) < n.toNat := by
          cases b <;> simp <;> omega
        exact hbody _ hjb.1 hjb.2
      · rw [if_neg hc, epure_ok, ebind_ok]
        exact hbody (2 * i + 1) (by omega) hj1n

lemma heapUp_ok (cells : List ScoreDoc) :
    ∀ (fuel : ℕ) (items : List GoVal) (j : ℕ),
      WFHeap cells items → j < items.length → j < fuel →
      ∃ its', heapUp cells fuel items j = .ok its' ∧
        its'.length = items.length ∧ ∀ v ∈ its', v ∈ items := by
  intro fuel
  induction fuel with
  | zero => intro items j _ _ hf; omega
  | succ f ih =>
    intro items j hwf hjl hjf
    by_cases hij : (j - 1) / 2 = j
    · refine ⟨items, ?_, rfl, fun v hv => hv⟩
      simp only [heapUp]
      rw [if_pos hij]
    · have hj0 : 1 ≤ j := by omega
      have hpar : (j - 1) / 2 < j := by omega
      obtain ⟨b, hb⟩ := pqLess_ok cells items (j : ℤ) (((j - 1) / 2 : ℕ) : ℤ) hwf
        (by omega) (by omega) (by omega) (by omega)
      simp only [heapUp]
      rw [if_neg hij, hb, ebind_ok]
      cases b with
      | false => exact ⟨items, by simp, rfl, fun v hv => hv⟩
      | true =>
        obtain ⟨its₁, hs, hl1, hm1⟩ := pqSwap_ok items (((j - 1) / 2 : ℕ) : ℤ) (j : ℤ)
          (by omega) (by omega) (by omega) (by omega)
        have hwf₁ : WFHeap cells its₁ := fun v hv => hwf v (hm1 v hv)
        obtain ⟨its₂, hu, hl2, hm2⟩ := ih its₁ ((j - 1) / 2) hwf₁ (by omega) (by omega)
        refine ⟨its₂, ?_, by omega, fun v hv => hm1 v (hm2 v hv)⟩
        simp only [if_true]
        rw [hs, ebind_ok, hu]

lemma pqSlicePop_ok (items : List GoVal) (h : items ≠ []) :
    ∃ v its', pqSlicePop items = .ok (v, its') ∧ v ∈ items ∧
      its'.length = items.length - 1 ∧ ∀ w ∈ its', w ∈ items := by
  refine ⟨items.getLast h, items.dropLast, ?_, List.getLast_mem h, ?_, ?_⟩
  · unfold pqSlicePop
    rw [List.getLast?_eq_getLast items h]
  · simp
  · intro w hw
    exact (List.dropLast_prefix items).subset hw

lemma heapPop_ok (cells : List ScoreDoc) (items : List GoVal)
    (hwf : WFHeap cells items) (hne : items ≠ []) :
    ∃ v its', heapPop cells items = .ok (v, its') ∧ goodPtr cells v = true ∧
      its'.length = items.length - 1 ∧ WFHeap cells its' := by
  have hlen : 0 < items.length := List.length_pos.mpr hne
  obtain ⟨its₁, hs, hl1, hm1⟩ := pqSwap_ok items 0 ((items.length : ℤ) - 1)
    (by omega) (by omega) (by omega) (by omega)
  have hwf₁ : WFHeap cells its₁ := fun v hv => hwf v (hm1 v hv)
  obtain ⟨its₂, hd, hl2, hm2⟩ := heapDown_ok cells (its₁.length + 1) its₁ 0
    ((items.length : ℤ) - 1) hwf₁ (by omega) (by omega) (by omega)
  have hne₂ : its₂ ≠ [] := by
    intro hnil
    rw [hnil] at hl2
    simp at hl2
    omega
  obtain ⟨v, its₃, hp, hv, hl3, hm3⟩ := pqSlicePop_ok its₂ hne₂
  refine ⟨v, its₃, ?_, hwf v (hm1 v (hm2 v hv)), by omega,
    fun w hw => hwf w (hm1 w (hm2 w (hm3 w hw)))⟩
  unfold heapPop
  rw [hs, ebind_ok, hd, ebind_ok, hp]

lemma heapPush_ok (cells : List ScoreDoc) (items : List GoVal) (x : GoVal)
    (hwf : WFHeap cells items) (hx : goodPtr cells x = true) :
    ∃ its', heapPush cells items x = .ok its' ∧
      its'.length = items.length + 1 ∧ WFHeap cells its' := by
  have hwf' : WFHeap cells (items ++ [x]) := by
    intro v hv
    rcases List.mem_append.mp hv with hv' | hv'
    · exact hwf v hv'
    · rw [List.mem_singleton.mp hv']
      exact hx
  obtain ⟨its', hu, hl, hm⟩ := heapUp_ok cells ((items ++ [x]).length + 1)
    (items ++ [x]) ((items ++ [x]).length - 1) hwf'
    (by simp only [List.length_append, List.length_cons, List.length_nil]; omega)
    (by simp only [List.length_append, List.length_cons, List.length_nil]; omega)
  refine ⟨its', hu, by simp at hl ⊢; omega, fun v hv => hwf' v (hm v hv)⟩

lemma discardN_ok (cells : List ScoreDoc) :
    ∀ (k : ℕ) (items : List GoVal), WFHeap cells items → k ≤ items.length →
      ∃ its', discardN cells k items = .ok its' ∧
        its'.length = items.length - k ∧ WFHeap cells its' := by
  intro k
  induction k with
  | zero => intro items hwf _; exact ⟨items, rfl, by omega, hwf⟩
  | succ k' ih =>
    intro items hwf hk
    have hne : items ≠ [] := by
      intro hnil
      rw [hnil] at hk
      simp at hk
    obtain ⟨v, its₁, hp, _, hl1, hwf₁⟩ := heapPop_ok cells items hwf hne
    obtain ⟨its₂, hd, hl2, hwf₂⟩ := ih its₁ hwf₁ (by omega)
    refine ⟨its₂, ?_, by omega, hwf₂⟩
    simp only [discardN]
    rw [hp, ebind_ok, hd]

lemma populateResults_ok (cells : List ScoreDoc) :
    ∀ (k : ℕ) (items : List GoVal), WFHeap cells items → k ≤ items.length →
      ∃ rs its', populateResults cells k items = .ok (rs, its') ∧
        rs.length = k ∧ its'.length = items.length - k ∧ WFHeap cells its' := by
  intro k
  induction k with
  | zero => intro items hwf _; exact ⟨[], items, rfl, rfl, by omega, hwf⟩
  | succ k' ih =>
    intro items hwf hk
    have hne : items ≠ [] := by
      intro hnil
      rw [hnil] at hk
      simp at hk
    obtain ⟨v, its₁, hp, hgood, hl1, hwf₁⟩ := heapPop_ok cells items hwf hne
    obtain ⟨kp, hkv, hkc⟩ := goodPtr_elim hgood
    obtain ⟨rs, its₂, hr, hrl, hl2, hwf₂⟩ := ih its₁ hwf₁ (by omega)
    refine ⟨rs ++ [cells.get ⟨kp, hkc⟩], its₂, ?_, by simp [hrl], by omega, hwf₂⟩
    simp only [populateResults]
    rw [hp, ebind_ok, hkv]
    simp only [assertPtr, ebind_ok]
    rw [derefC_ok _ _ hkc, ebind_ok, hr, ebind_ok]

lemma rangeValid_ok (cells : List ScoreDoc) (items : List GoVal) (start hm : ℤ)
    (hwf : WFHeap cells items) (h0 : 0 ≤ start) (h1 : 0 < hm)
    (h2 : start + hm ≤ (items.length : ℤ)) :
    ∃ rs mx its', rangeValid cells items start hm = .ok (some (rs, mx), its') ∧
      rs.length = hm.toNat := by
  have hd1 : ((items.length : ℤ) - start - hm).toNat ≤ items.length := by omega
  obtain ⟨its₁, hdis, hl1, hwf₁⟩ := discardN_ok cells _ items hwf hd1
  have hp1 : hm.toNat ≤ its₁.length := by omega
  obtain ⟨rs, its₂, hpop, hrl, hl2, hwf₂⟩ := populateResults_ok cells hm.toNat its₁ hwf₁ hp1
  by_cases hstart : start = 0
  · have hrs : 0 < rs.length := by omega
    refine ⟨rs, some ((rs.get ⟨0, hrs⟩).score), its₂, ?_, hrl⟩
    unfold rangeValid
    rw [hdis, ebind_ok, hpop, ebind_ok]
    simp only []
    rw [if_pos hstart, getI_ok rs 0 (by omega) (by simpa using hrs), ebind_ok]
    rfl
  · have hl2' : its₂.length = start.toNat := by omega
    obtain ⟨its₃, hdis3, hl3, hwf₃⟩ := discardN_ok cells (its₂.length - 1) its₂ hwf₂ (by omega)
    have hne₃ : its₃ ≠ [] := by
      intro h
      rw [h] at hl3
      simp at hl3
      omega
    obtain ⟨v, its₄, hpop4, hgood, hl4, hwf₄⟩ := heapPop_ok cells its₃ hwf₃ hne₃
    obtain ⟨kp, hkv, hkc⟩ := goodPtr_elim hgood
    refine ⟨rs, some ((cells.get ⟨kp, hkc⟩).score), its₄, ?_, hrl⟩
    unfold rangeValid
    rw [hdis, ebind_ok, hpop, ebind_ok]
    simp only []
    rw [if_neg hstart, hdis3, ebind_ok, hpop4, ebind_ok]
    simp only []
    rw [hkv]
    simp only [assertPtr, ebind_ok]
    rw [derefC_ok _ _ hkc, ebind_ok]

lemma topDocsSize_le (s : CollectorState) : topDocsSize s ≤ (s.items.length : ℤ) := by
  unfold topDocsSize
  split <;> omega

lemma invalidRangeEmpty (s : CollectorState) (start count : ℤ)
    (h : start < 0 ∨ start ≥ topDocsSize s ∨ count ≤ 0) :
    topDocsRange s start count =
      .ok ({totalHits := 0, scoreDocs := [], maxScore := none}, s) := by
  unfold topDocsRange rangePayload
  rw [if_pos h]

lemma topDocsSize_zero (s : CollectorState) (h : s.totalHits = 0) :
    topDocsSize s = 0 := by
  unfold topDocsSize
  rw [h]
  split <;> omega

lemma pqLess_sd (cells : List ScoreDoc) (items : List GoVal) (i j : ℤ)
    (hall : ∀ v ∈ items, ∃ d, v = GoVal.sd d)
    (h0i : 0 ≤ i) (h1i : i.toNat < items.length)
    (h0j : 0 ≤ j) (h1j : j.toNat < items.length) :
    pqLess cells items i j = .error .typeAssert := by
  obtain ⟨d, hd⟩ := hall _ (items.get_mem _ h1i)
  unfold pqLess
  rw [getI_ok _ _ h0i h1i, ebind_ok, getI_ok _ _ h0j h1j, ebind_ok, hd]
  rfl

lemma heapDown_sd (cells : List ScoreDoc) (fuel : ℕ) (items : List GoVal)
    (i : ℕ) (n : ℤ) (hfuel : 0 < fuel)
    (hall : ∀ v ∈ items, ∃ d, v = GoVal.sd d)
    (hj : ((2 * i + 1 : ℕ) : ℤ) < n) (hn : n ≤ (items.length : ℤ)) :
    heapDown cells fuel items i n = .error .typeAssert := by
  cases fuel with
  | zero => omega
  | succ f =>
    simp only [heapDown]
    rw [if_neg (by omega)]
    by_cases hc : ((2 * i + 2 : ℕ) : ℤ) < n
    · rw [if_pos hc,
        pqLess_sd cells items _ _ hall (by omega) (by omega) (by omega) (by omega)]
      rfl
    · rw [if_neg hc, epure_ok, ebind_ok,
        pqLess_sd cells items _ _ hall (by omega) (by omega) (by omega) (by omega)]
      rfl

lemma heapInit_sd_fails (cells : List ScoreDoc) (k : ℕ) (hk : 2 ≤ k) :
    heapInit cells (List.replicate k (GoVal.sd sentinelSD)) = .error .typeAssert := by
  unfold heapInit
  rw [List.length_replicate]
  obtain ⟨m, hm⟩ : ∃ m, k / 2 = m + 1 := ⟨k / 2 - 1, by omega⟩
  rw [hm]
  simp only [heapInitGo]
  rw [heapDown_sd cells _ _ m (k : ℤ) (by omega)
    (fun v hv => ⟨sentinelSD, List.eq_of_mem_replicate hv⟩)
    (by omega) (by rw [List.length_replicate])]
  rfl

lemma newToc_fails (numHits : ℤ) :
    ∃ e, newTocScoreDocCollector numHits = .error e := by
  by_cases hneg : numHits < 0
  · exact ⟨.indexOutOfRange, by unfold newTocScoreDocCollector; rw [if_pos hneg]⟩
  · rcases h012 : numHits.toNat with _ | _ | k
    · refine ⟨.indexOutOfRange, ?_⟩
      unfold newTocScoreDocCollector
      rw [if_neg hneg, h012]
      rfl
    · refine ⟨.typeAssert, ?_⟩
      unfold newTocScoreDocCollector
      rw [if_neg hneg, h012]
      rfl
    · refine ⟨.typeAssert, ?_⟩
      unfold newTocScoreDocCollector
      rw [if_neg hneg, h012]
      simp only []
      rw [heapInit_sd_fails [] (k + 1 + 1) (by omega)]
      rfl

/-! ### Claim theorems -/

/-- C1: the spec's worked example.  The claim says a fresh K=3 collector
fed scores [1,5,3,9,2] (ids 100..104, docBase 0) yields
`fullResult()` = [(9,103),(5,101),(3,102)] with maxScore 9 and
totalHits 5, and `extract(1,1)` = [(5,101)].  The code does neither: the
literal constructor panics on the `*ScoreDoc` type assertion (it stored
struct values), and even with the pointer repair the run returns three
copies of (9,103) — `Collect` never reacquires `pqTop` after its
pop/push, so the single aliased cell holding the running maximum is
duplicated — and `extract(1,1)` returns (9,103), not (5,101). -/
theorem claim1_example_run_diverges :
    NewTopScoreDocCollector 3 true = .error .typeAssert ∧
    fullResultPtr 3 c1hits =
      .ok {totalHits := 5,
           scoreDocs := [{score := 9, doc := 103}, {score := 9, doc := 103},
             {score := 9, doc := 103}],
           maxScore := some 9} ∧
    extractPtr 3 c1hits 1 1 =
      .ok {totalHits := 5, scoreDocs := [{score := 9, doc := 103}],
           maxScore := some 9} :=
  ⟨by decide, by decide, by decide⟩

/-- C2: the claim describes `fullResult()` of a collector that collected
N hits; no such collector exists, because `NewTopScoreDocCollector`
(in-order) fails for every capacity: the guard panics for negative
`numHits`, and construction itself panics for every other `numHits`
(empty-queue `Swap(0,-1)` for 0, the `*ScoreDoc` type assertion
otherwise). -/
theorem claim2_construction_always_fails (numHits : ℤ) :
    ∃ e, NewTopScoreDocCollector numHits true = .error e := by
  by_cases hneg : numHits < 0
  · exact ⟨_, by unfold NewTopScoreDocCollector; rw [if_pos hneg]⟩
  · obtain ⟨e, he⟩ := newToc_fails numHits
    refine ⟨e, ?_⟩
    unfold NewTopScoreDocCollector
    rw [if_neg hneg]
    exact he

/-- C3: the claim says `fullResult().maxScore` (and any valid
`extract`'s) equals the true maximum of all submitted scores.  The
literal constructor already panics (first conjunct), so no maxScore is
ever produced.  (Under the pointer repair the recovery logic itself does
return the true maximum — second conjunct: extract(1,1) after scores
[4,7] reports 7 — because the stale `pqTop` cell always holds the running
maximum.) -/
theorem claim3_maxscore_unreachable :
    newTocScoreDocCollector 1 = .error .typeAssert ∧
    extractPtr 2 [(4, 100), (7, 101)] 1 1 =
      .ok {totalHits := 2, scoreDocs := [{score := 7, doc := 101}],
           maxScore := some 7} :=
  ⟨by decide, by decide⟩

/-- C4: the claim says an accepted hit leaves the heap equal to the
previous contents with the minimum replaced by the new entry.  Literal
construction panics (first conjunct); under the pointer repair, a K=2
collector accepting its first hit (1,100) ends with heap contents
[(1,100),(1,100)] — the mutated `pqTop` cell twice — instead of the
claimed multiset, one sentinel plus (1,100): `heap.Pop` removed the root
sentinel while the mutated cell sat elsewhere, and `heap.Push(pqTop)`
inserted a second reference to it. -/
theorem claim4_replace_min_diverges :
    newTocScoreDocCollector 2 = .error .typeAssert ∧
    heapAfterPtr 2 [(1, 100)] =
      .ok [{score := 1, doc := 100}, {score := 1, doc := 100}] :=
  ⟨by decide, by decide⟩

/-- C7: the claim says the first K collect calls are unconditionally
accepted, each evicting one sentinel.  Literal construction panics (first
conjunct); under the pointer repair with K=3, after (5,100) the heap is
[sentinel,(5,100),(5,100)], and the second call (1,101) — with two of the
three calls used and a sentinel still present — leaves the heap
identical while the counter reaches 2: it was rejected (1 ≤ the stale
`pqTop` score 5), not accepted evicting a sentinel. -/
theorem claim7_first_k_not_accepted :
    newTocScoreDocCollector 3 = .error .typeAssert ∧
    heapAfterPtr 3 [(5, 100)] =
      .ok [sentinelSD, {score := 5, doc := 100}, {score := 5, doc := 100}] ∧
    heapAfterPtr 3 [(5, 100), (1, 101)] =
      .ok [sentinelSD, {score := 5, doc := 100}, {score := 5, doc := 100}] ∧
    (runPtr 3 [(5, 100), (1, 101)]).map CollectorState.totalHits = .ok 2 :=
  ⟨by decide, by decide, by decide, by decide⟩

/-- C8: the claim says every K ≤ 0 is rejected with an explicit
caller-error signal.  K = -1 is (the guard's message), but the guard
tests `numHits < 0`, so K = 0 slips through into construction and dies
with an out-of-range slice index — a crash, not the explicit caller
error the guard's own "must be > 0" message promises. -/
theorem claim8_zero_capacity_not_signaled :
    NewTopScoreDocCollector 0 true = .error .indexOutOfRange ∧
    NewTopScoreDocCollector (-1) true = .error (.callerErr
      "numHits must be > 0; please use TotalHitCountCollector if you just need the total hit count") ∧
    GoErr.indexOutOfRange ≠ GoErr.callerErr
      "numHits must be > 0; please use TotalHitCountCollector if you just need the total hit count" :=
  ⟨by decide, by decide, by decide⟩

/-- C6 counterexample: the claim says the empty result of an invalid
range carries the accumulator's current totalCandidatesSeen.  It does
not: on a state whose counter is 5, `TopDocsRange(-1, 1)` returns a
`TopDocs` whose `totalHits` field is 0 (collect.go line 142 builds
`TopDocs{0, []ScoreDoc{}, math.NaN()}`). -/
theorem claim6_total_hits_not_preserved :
    topDocsRange c6state (-1) 1 =
      .ok ({totalHits := 0, scoreDocs := [], maxScore := none}, c6state) ∧
    c6state.totalHits = 5 :=
  ⟨by decide, by decide⟩

/-- C6 amended: for every accumulator state, `TopDocsRange(start, count)`
with `start < 0`, `start ≥ topDocsSize()` or `count ≤ 0` returns, without
error and without touching the accumulator, an empty `TopDocs` whose hit
list is empty, whose maxScore is NaN, and whose `totalHits` field is 0
regardless of the accumulator's counter (the counter itself is
unchanged — the returned state is the input state). -/
theorem claim6_invalid_range_empty (s : CollectorState) (start count : ℤ)
    (h : start < 0 ∨ start ≥ topDocsSize s ∨ count ≤ 0) :
    topDocsRange s start count =
      .ok ({totalHits := 0, scoreDocs := [], maxScore := none}, s) :=
  invalidRangeEmpty s start count h

/-- C6 witness: the amended theorem applied at `c6state`, `start = -1`. -/
theorem claim6_invalid_range_empty_witness :
    ((-1 : ℤ) < 0 ∨ (-1 : ℤ) ≥ topDocsSize c6state ∨ (1 : ℤ) ≤ 0) ∧
    topDocsRange c6state (-1) 1 =
      .ok ({totalHits := 0, scoreDocs := [], maxScore := none}, c6state) :=
  ⟨by decide, claim6_invalid_range_empty c6state (-1) 1 (by decide)⟩

/-- C10: `TopDocs()` on an accumulator that has collected nothing
(`TotalHits = 0`) succeeds and returns the empty `TopDocs` (zero
totalHits, no hits, NaN maxScore), because `topDocsSize()` is 0 and the
call takes the invalid-range branch. -/
theorem claim10_empty_collector_topdocs (s : CollectorState)
    (h : s.totalHits = 0) :
    topDocsFull s =
      .ok ({totalHits := 0, scoreDocs := [], maxScore := none}, s) := by
  have h0 := topDocsSize_zero s h
  unfold topDocsFull
  exact invalidRangeEmpty s 0 (topDocsSize s) (Or.inr (Or.inr (by omega)))

/-- C10 witness: the theorem applied at `c10state`. -/
theorem claim10_empty_collector_topdocs_witness :
    c10state.totalHits = 0 ∧
    topDocsFull c10state =
      .ok ({totalHits := 0, scoreDocs := [], maxScore := none}, c10state) :=
  ⟨by decide, claim10_empty_collector_topdocs c10state (by decide)⟩

/-- C9: for every well-formed accumulator state and every valid `start`
(`0 ≤ start < topDocsSize()`) with `count > 0` and
`start + count > topDocsSize()`, `TopDocsRange(start, count)` succeeds
and returns exactly `topDocsSize() - start` hits (the count is clamped). -/
theorem claim9_clamped_count (s : CollectorState) (start howMany : ℤ)
    (hwf : WFHeap s.cells s.items) (h0 : 0 ≤ start)
    (h1 : start < topDocsSize s) (h2 : 0 < howMany)
    (h3 : topDocsSize s < start + howMany) :
    ∃ td s', topDocsRange s start howMany = .ok (td, s') ∧
      (td.scoreDocs.length : ℤ) = topDocsSize s - start := by
  have hsz := topDocsSize_le s
  have hclamp : (if topDocsSize s - start < howMany then topDocsSize s - start
      else howMany) = topDocsSize s - start := if_pos (by omega)
  obtain ⟨rs, mx, its', hval, hrl⟩ := rangeValid_ok s.cells s.items start
    (topDocsSize s - start) hwf h0 (by omega) (by omega)
  refine ⟨{totalHits := s.totalHits, scoreDocs := rs, maxScore := mx},
    {s with items := its'}, ?_, by simp only []; omega⟩
  unfold topDocsRange rangePayload
  rw [if_neg (by omega : ¬(start < 0 ∨ start ≥ topDocsSize s ∨ howMany ≤ 0)),
    hclamp, hval]

/-- C9 witness: the theorem applied at `c9state` (three retained hits,
counter 5, so `topDocsSize` is 3) with `start = 1`, `count = 5`: the
extraction succeeds with exactly 2 hits. -/
theorem claim9_clamped_count_witness :
    (0 ≤ (1 : ℤ) ∧ (1 : ℤ) < topDocsSize c9state ∧ (0 : ℤ) < 5 ∧
      topDocsSize c9state < 1 + 5) ∧
    ∃ td s', topDocsRange c9state 1 5 = .ok (td, s') ∧
      (td.scoreDocs.length : ℤ) = topDocsSize c9state - 1 :=
  ⟨by decide,
    claim9_clamped_count c9state 1 5 (by decide) (by decide) (by decide)
      (by decide) (by decide)⟩

/-- C5 counterexample: the original claim's "leaves the heap — and hence
any later orderedHits — unchanged" fails at a state the collector's own
loop reaches.  After the pointer-repaired K=3 collector accepts 5 then 7
(state `c5cex`: all held scores are 7, counter 2), the legal score 6
(above the sentinel, at most the heap minimum 7) is rejected and the heap
is untouched — yet `TopDocsRange(0,3)` returns 2 hits before that call
and 3 hits after it, because the incremented counter enlarges
`topDocsSize` while it is still below the heap size. -/
theorem claim5_rejected_call_changes_result :
    runPtr 3 [(5, 100), (7, 101)] = .ok c5cex ∧
    heapScores c5cex = [7, 7, 7] ∧
    sentinelSD.score < 6 ∧
    collect c5cex 6 102 = .ok {c5cex with totalHits := 3} ∧
    (topDocsRange c5cex 0 3).map (fun p => p.1.scoreDocs) =
      .ok [{score := 7, doc := 101}, {score := 7, doc := 101}] ∧
    (topDocsRange {c5cex with totalHits := 3} 0 3).map (fun p => p.1.scoreDocs) =
      .ok [{score := 7, doc := 101}, {score := 7, doc := 101},
        {score := 7, doc := 101}] :=
  ⟨by decide, by decide, by decide, by decide, by decide, by decide⟩

/-- C5 amended: on a well-formed accumulator state (`pqTop` one of the
held slots), a collect call whose score is at most every held score (in
particular at most the heap minimum) is rejected: the cells, slots,
`pqTop` and `docBase` are untouched and only `TotalHits` grows by one.
A later `TopDocsRange` yields the same `scoreDocs` only once the counter
has reached the heap size (otherwise the incremented counter enlarges
`topDocsSize`, as the counterexample shows).  Every collect call,
accepted or rejected, increments `TotalHits` by exactly one. -/
theorem claim5_reject_frame_amended (s : CollectorState) (score : ℚ) (doc : ℤ)
    (hwf : WFHeap s.cells s.items) (hmem : GoVal.ptr s.pqTop ∈ s.items)
    (hmin : ∀ q ∈ heapScores s, score ≤ q) :
    collect s score doc = .ok {s with totalHits := s.totalHits + 1} ∧
    ((s.items.length : ℤ) ≤ s.totalHits →
      ∀ start count,
        (topDocsRange {s with totalHits := s.totalHits + 1} start count).map
            (fun p => p.1.scoreDocs) =
          (topDocsRange s start count).map (fun p => p.1.scoreDocs)) ∧
    (∀ (score' : ℚ) (doc' : ℤ), ∃ s'', collect s score' doc' = .ok s'' ∧
      s''.totalHits = s.totalHits + 1) := by
  have hptr : s.pqTop < s.cells.length := by
    have h := hwf _ hmem
    simpa [goodPtr] using h
  have hscore : score ≤ (s.cells.get ⟨s.pqTop, hptr⟩).score := by
    apply hmin
    unfold heapScores
    refine List.mem_filterMap.mpr ⟨GoVal.ptr s.pqTop, hmem, ?_⟩
    simp only []
    rw [List.get?_eq_get hptr]
    rfl
  refine ⟨?_, ?_, ?_⟩
  · simp only [collect]
    rw [derefC_ok _ _ hptr, ebind_ok, if_pos hscore]
  · intro hwarm start count
    have hsz : topDocsSize {s with totalHits := s.totalHits + 1} = topDocsSize s := by
      unfold topDocsSize
      simp only []
      rw [if_pos (by omega), if_pos (by omega)]
    unfold topDocsRange
    rw [hsz]
    simp only []
    cases hpay : rangePayload s.cells s.items (topDocsSize s) start count with
    | error e => rfl
    | ok p =>
      rcases p with ⟨op, its⟩
      cases op with
      | none => rfl
      | some pr =>
        rcases pr with ⟨rs, mx⟩
        rfl
  · intro score' doc'
    simp only [collect]
    rw [derefC_ok _ _ hptr, ebind_ok]
    by_cases hsc : score' ≤ (s.cells.get ⟨s.pqTop, hptr⟩).score
    · rw [if_pos hsc]
      exact ⟨_, rfl, rfl⟩
    · rw [if_neg hsc]
      have hne : s.items ≠ [] := by
        intro h
        rw [h] at hmem
        simp at hmem
      have hwf' : WFHeap
          (s.cells.set s.pqTop {score := score', doc := doc' + s.docBase}) s.items := by
        intro v hv
        obtain ⟨k, hk, hkc⟩ := goodPtr_elim (hwf v hv)
        rw [hk]
        simp [goodPtr, List.length_set]
        exact hkc
      obtain ⟨v, its₁, hp, _, hl1, hwf₁⟩ := heapPop_ok _ s.items hwf' hne
      obtain ⟨its₂, hpu, hl2, hwf₂⟩ := heapPush_ok _ its₁ (GoVal.ptr s.pqTop) hwf₁
        (by simp [goodPtr, List.length_set]; exact hptr)
      rw [hp, ebind_ok]
      simp only []
      rw [hpu, ebind_ok]
      exact ⟨_, rfl, rfl⟩

/-- C5 witness: the amended theorem applied at `c5state` (one retained
hit with score 5, counter 3) and the rejected score 4, exercising all
three conjuncts including the counter-reached-heap-size condition. -/
theorem claim5_reject_frame_amended_witness :
    collect c5state 4 10 = .ok {c5state with totalHits := c5state.totalHits + 1} ∧
    (topDocsRange {c5state with totalHits := c5state.totalHits + 1} 0 1).map
        (fun p => p.1.scoreDocs) =
      (topDocsRange c5state 0 1).map (fun p => p.1.scoreDocs) ∧
    (∃ s'', collect c5state 2 11 = .ok s'' ∧ s''.totalHits = c5state.totalHits + 1) := by
  obtain ⟨hA, hB, hC⟩ := claim5_reject_frame_amended c5state 4 10 (by decide) (by decide)
    (by decide)
  exact ⟨hA, hB (by decide) 0 1, hC 2 11⟩
